import Mathlib

/-!
Verification of the gotilert alert-forwarding service.

Shallow embedding of the core functions of the repository:
severity resolution and label construction (`cmd/gotilert/main.go`),
the Alertmanager delivery client's retry classifier, backoff and retry
loop (`internal/alertmanager/client.go`), token extraction
(`internal/server/message.go`), the message-id counter
(`internal/server/message.go`) and extras extraction
(`internal/gotify/extras_annotations.go`).

Go strings are modelled in two ways, each chosen for the function at
hand: as Lean `String`s (sequences of Unicode scalar values, which for
valid UTF-8 agrees with Go's rune view) where byte-level behaviour is
irrelevant, and as `List Nat` of byte values where the source indexes
bytes (`pickSummary`'s truncation).  Machine integers are modelled as
`Int`/`Nat` with explicit wrap-around where overflow is reachable.
-/

/-! ## Shared string helpers (character model)

`isSpaceRune r` is `unicode.IsSpace` on the code point `r`: the ASCII
whitespace bytes plus the Unicode White_Space code points handled by
Go's `unicode.IsSpace` table. -/

def isSpaceRune (r : Nat) : Bool :=
  r == 9 || r == 10 || r == 11 || r == 12 || r == 13 || r == 32 ||
  r == 0x85 || r == 0xA0 || r == 0x1680 ||
  (0x2000 ≤ r && r ≤ 0x200A) ||
  r == 0x2028 || r == 0x2029 || r == 0x202F || r == 0x205F || r == 0x3000

/-- Go `strings.TrimSpace` on a list of Unicode scalar values.  For a
valid-UTF-8 Go string this agrees with the byte-level implementation in
`strings/strings.go` (which trims whitespace runes from both ends). -/
def trimSpaceChars (l : List Char) : List Char :=
  ((l.dropWhile (fun c => isSpaceRune c.toNat)).reverse.dropWhile
    (fun c => isSpaceRune c.toNat)).reverse

/-- Go `strings.TrimSpace` on the `String` model. -/
def trimSpaceStr (s : String) : String :=
  String.mk (trimSpaceChars s.toList)

/-- ASCII lowering of one character.  Go's `strings.ToLower` lowers every
rune via the full Unicode table; the only Unicode runes whose lowercase
form is an ASCII letter are U+0130 → i and U+212A → k, neither of which
occurs in the pattern `"bearer "`, so for the prefix comparison performed
in `extractToken` this ASCII map is extensionally equal to Go's. -/
def lowerChar (c : Char) : Char :=
  if 'A' ≤ c ∧ c ≤ 'Z' then Char.ofNat (c.toNat + 32) else c

/-- Go `strings.ToLower`, restricted as described at `lowerChar`. -/
def toLowerGo (s : String) : String :=
  String.mk (s.toList.map lowerChar)

/-! ## Severity resolution (`cmd/gotilert/main.go`, `severityForPriority`)

A Go `map[int]string` is modelled as an association list with pairwise
distinct keys; Go's nondeterministic map-iteration order is modelled by
quantifying the theorems over every list (hence every order). -/

/-- Lookup in the association-list model of `map[int]string`. -/
def sevLookup : List (Int × String) → Int → Option String
  | [], _ => none
  | (k, v) :: rest, key => if k = key then some v else sevLookup rest key

/-- The `for key := range mapping` loop body of `severityForPriority`
(lines 343–365 of `cmd/gotilert/main.go`), iterating over the listed keys
with state `(bestKey, bestSet)`. -/
def bestKeyLoop (priority : Int) : List Int → Int → Bool → Int × Bool
  | [], bestKey, bestSet => (bestKey, bestSet)
  | key :: rest, bestKey, bestSet =>
    if !bestSet then
      bestKeyLoop priority rest key true
    else if key ≤ priority ∧ bestKey ≤ priority then
      bestKeyLoop priority rest (if key > bestKey then key else bestKey) bestSet
    else if bestKey > priority ∧ key < bestKey then
      bestKeyLoop priority rest key bestSet
    else
      bestKeyLoop priority rest bestKey bestSet

/-- `severityForPriority` from `cmd/gotilert/main.go`: exact match wins,
otherwise the loop picks a best key and the map is consulted at it, with
a final `"info"` fallback. -/
def severityForPriority (mapping : List (Int × String)) (priority : Int) : String :=
  match sevLookup mapping priority with
  | some sev => sev
  | none =>
    match sevLookup mapping (bestKeyLoop priority (mapping.map Prod.fst) 0 false).1 with
    | some sev => sev
    | none => "info"

/-- The three canonical severities. -/
def canonicalSeverities : List String := ["info", "warning", "critical"]

/-- Keys of the list that are ≤ the priority. -/
def keysAtMost (p : Int) (ks : List Int) : List Int :=
  ks.filter (fun k => decide (k ≤ p))

def foldMax (x : Int) (l : List Int) : Int := l.foldl max x

def foldMin (x : Int) (l : List Int) : Int := l.foldl min x

/-- Maximum of a list of keys, `none` for the empty list. -/
def listMax : List Int → Option Int
  | [] => none
  | x :: xs => some (foldMax x xs)

/-- Minimum of a list of keys, `none` for the empty list. -/
def listMin : List Int → Option Int
  | [] => none
  | x :: xs => some (foldMin x xs)

/-- Severity resolution as the specification words it: the exact match if
present; else the map at the largest key ≤ the priority if one exists;
else the map at the smallest key; `"info"` for the empty map. -/
def sevSpec (mapping : List (Int × String)) (p : Int) : String :=
  match sevLookup mapping p with
  | some sev => sev
  | none =>
    match listMax (keysAtMost p (mapping.map Prod.fst)) with
    | some k => (sevLookup mapping k).getD "info"
    | none =>
      match listMin (mapping.map Prod.fst) with
      | some k => (sevLookup mapping k).getD "info"
      | none => "info"

theorem foldMax_cons (b k : Int) (l : List Int) :
    foldMax b (k :: l) = foldMax (max b k) l := rfl

theorem foldMin_cons (b k : Int) (l : List Int) :
    foldMin b (k :: l) = foldMin (min b k) l := rfl

/-- Characterisation of the key-selection loop, independent of the
iteration order encoded in `ks`. -/
theorem bestKeyLoop_char (p : Int) :
    ∀ (ks : List Int) (b : Int),
      bestKeyLoop p ks b true =
        (if b ≤ p then foldMax b (keysAtMost p ks)
         else
           match keysAtMost p ks with
           | [] => foldMin b ks
           | k :: kr => foldMax k kr, true) := by
  intro ks
  induction ks with
  | nil =>
    intro b
    by_cases hb : b ≤ p
    · simp [bestKeyLoop, keysAtMost, foldMax, hb]
    · simp [bestKeyLoop, keysAtMost, foldMin, hb]
  | cons k rest ih =>
    intro b
    by_cases hb : b ≤ p
    · by_cases hk : k ≤ p
      · -- both ≤ p: keep the larger
        have hfilter : keysAtMost p (k :: rest) = k :: keysAtMost p rest := by
          simp [keysAtMost, hk]
        have : (if k > b then k else b) = max b k := by omega
        simp only [bestKeyLoop, hk, hb, and_self, if_true, Bool.not_true,
          Bool.false_eq_true, if_false, this, hfilter]
        rw [ih (max b k)]
        have hmax : max b k ≤ p := by omega
        simp [hb, hmax, foldMax_cons]
      · -- key > p, best ≤ p: keep best
        have hfilter : keysAtMost p (k :: rest) = keysAtMost p rest := by
          simp [keysAtMost, hk]
        have hcond1 : ¬(k ≤ p ∧ b ≤ p) := by omega
        have hcond2 : ¬(b > p ∧ k < b) := by omega
        simp only [bestKeyLoop, Bool.not_true, Bool.false_eq_true, if_false,
          hcond1, hcond2, hfilter]
        rw [ih b]
        simp [hb]
    · by_cases hk : k ≤ p
      · -- best > p, key ≤ p: switch to key
        have hkb : k < b := by omega
        have hfilter : keysAtMost p (k :: rest) = k :: keysAtMost p rest := by
          simp [keysAtMost, hk]
        have hcond1 : ¬(k ≤ p ∧ b ≤ p) := by omega
        have hcond2 : b > p ∧ k < b := by omega
        simp only [bestKeyLoop, Bool.not_true, Bool.false_eq_true, if_false,
          hcond1, hcond2, if_true, hfilter]
        rw [ih k]
        simp [hk, hb]
      · -- both > p: keep the smaller
        have hfilter : keysAtMost p (k :: rest) = keysAtMost p rest := by
          simp [keysAtMost, hk]
        have hcond1 : ¬(k ≤ p ∧ b ≤ p) := by omega
        by_cases hkb : k < b
        · have hcond2 : b > p ∧ k < b := by omega
          simp only [bestKeyLoop, Bool.not_true, Bool.false_eq_true, if_false,
            hcond1, hcond2, if_true, hfilter]
          rw [ih k]
          have hkp : ¬ k ≤ p := hk
          have hmin : min b k = k := by omega
          simp [hkp, hb, foldMin_cons, hmin]
        · have hcond2 : ¬(b > p ∧ k < b) := by omega
          simp only [bestKeyLoop, Bool.not_true, Bool.false_eq_true, if_false,
            hcond1, hcond2, hfilter]
          rw [ih b]
          have hmin : min b k = b := by omega
          simp [hb, foldMin_cons, hmin]

/-- A successful lookup returns a listed value. -/
theorem sevLookup_mem {m : List (Int × String)} {k : Int} {v : String}
    (h : sevLookup m k = some v) : (k, v) ∈ m := by
  induction m with
  | nil => simp [sevLookup] at h
  | cons kv rest ih =>
    obtain ⟨k0, v0⟩ := kv
    by_cases hk : k0 = k
    · subst hk
      simp [sevLookup] at h
      subst h
      exact List.mem_cons_self _ _
    · simp [sevLookup, hk] at h
      exact List.mem_cons_of_mem _ (ih h)

/-- The key the loop finally selects, starting from the unset state. -/
theorem bestKeyLoop_start (p : Int) (k0 : Int) (ks : List Int) :
    bestKeyLoop p (k0 :: ks) 0 false = bestKeyLoop p ks k0 true := by
  simp [bestKeyLoop]

/-- The source function agrees with the specification's description. -/
theorem severityForPriority_eq_spec (m : List (Int × String)) (p : Int) :
    severityForPriority m p = sevSpec m p := by
  unfold severityForPriority sevSpec
  cases hl : sevLookup m p with
  | some sev => rfl
  | none =>
    cases m with
    | nil => simp [bestKeyLoop, keysAtMost, listMax, listMin, sevLookup]
    | cons kv rest =>
      obtain ⟨k0, v0⟩ := kv
      rw [show (((k0, v0) :: rest).map Prod.fst) = k0 :: rest.map Prod.fst from rfl,
        bestKeyLoop_start, bestKeyLoop_char]
      by_cases hk0 : k0 ≤ p
      · have hfilter :
            keysAtMost p (k0 :: rest.map Prod.fst) =
              k0 :: keysAtMost p (rest.map Prod.fst) := by
          simp [keysAtMost, hk0]
        simp only [hk0, if_true, hfilter, listMax]
        cases h2 : sevLookup ((k0, v0) :: rest)
            (foldMax k0 (keysAtMost p (rest.map Prod.fst))) <;>
          simp [h2, Option.getD]
      · have hfilter :
            keysAtMost p (k0 :: rest.map Prod.fst) =
              keysAtMost p (rest.map Prod.fst) := by
          simp [keysAtMost, hk0]
        simp only [hk0, if_false, hfilter]
        cases hrest : keysAtMost p (rest.map Prod.fst) with
        | nil =>
          simp only [hrest, listMax, listMin]
          cases h2 : sevLookup ((k0, v0) :: rest) (foldMin k0 (rest.map Prod.fst)) <;>
            simp [h2, Option.getD]
        | cons k kr =>
          simp only [hrest, listMax]
          cases h2 : sevLookup ((k0, v0) :: rest) (foldMax k kr) <;>
            simp [h2, Option.getD]

/-- The result is always one of the three canonical values when the map's
values are. -/
theorem severityForPriority_canonical (m : List (Int × String)) (p : Int)
    (hcanon : ∀ kv ∈ m, kv.2 ∈ canonicalSeverities) :
    severityForPriority m p ∈ canonicalSeverities := by
  unfold severityForPriority
  cases hl : sevLookup m p with
  | some sev => exact hcanon _ (sevLookup_mem hl)
  | none =>
    cases h2 : sevLookup m (bestKeyLoop p (m.map Prod.fst) 0 false).1 with
    | some sev => exact hcanon _ (sevLookup_mem h2)
    | none => simp [canonicalSeverities]

/-- C1: for every severity map (distinct keys, canonical values) and every
priority `p ≥ 0`, `severityForPriority` returns a canonical severity; it
equals the map's entry at `p` when present, else the entry at the largest
key ≤ `p` when one exists, else the entry at the smallest key; and on the
empty map it returns `"info"` (the behaviour `sevSpec` words out). -/
theorem C1_severity_resolution (m : List (Int × String)) (p : Int)
    (_hnodup : (m.map Prod.fst).Nodup) (_hp : 0 ≤ p)
    (hcanon : ∀ kv ∈ m, kv.2 ∈ canonicalSeverities) :
    severityForPriority m p ∈ canonicalSeverities ∧
    severityForPriority m p = sevSpec m p ∧
    severityForPriority [] p = "info" := by
  refine ⟨severityForPriority_canonical m p hcanon,
    severityForPriority_eq_spec m p, ?_⟩
  simp [severityForPriority, sevLookup, bestKeyLoop]

/-- C1 witness: the specification's own example
`M = {0: info, 2: warning, 5: critical}`, `p = 3`. -/
theorem C1_severity_resolution_witness :
    severityForPriority [(0, "info"), (2, "warning"), (5, "critical")] 3 ∈
        canonicalSeverities ∧
    severityForPriority [(0, "info"), (2, "warning"), (5, "critical")] 3 =
        sevSpec [(0, "info"), (2, "warning"), (5, "critical")] 3 ∧
    severityForPriority [] 3 = "info" :=
  C1_severity_resolution [(0, "info"), (2, "warning"), (5, "critical")] 3
    (by decide) (by decide) (by decide)

/-! ## Label construction (`cmd/gotilert/main.go`, `newForwarder`)

Go `map[string]string` values are modelled as functions
`String → Option String`; `maps.Copy(dst, src)` makes `src`'s bindings
win, and `labels[k] = v` is pointwise insertion. -/

/-- `mergeStringMap(dst, src)` (lines 329–335): every key of `src`
overrides `dst`.  The source's `len(src) == 0` early return has no
semantic effect (an empty source overrides nothing). -/
def mergeStringMap (dst src : String → Option String) : String → Option String :=
  fun k => match src k with
  | some v => some v
  | none => dst k

/-- One Go map assignment `m[key] = v`. -/
def mapSet (m : String → Option String) (key val : String) : String → Option String :=
  fun k => if k = key then some val else m k

/-- Alert-name resolution in `newForwarder`: the per-app override, trimmed,
beats the configured default when non-empty. -/
def resolveAlertName (defaultAlertName appAlertName : String) : String :=
  if trimSpaceStr appAlertName ≠ "" then trimSpaceStr appAlertName else defaultAlertName

/-- Severity-map selection in `newForwarder`: a non-empty per-app map
replaces the default map wholesale. -/
def resolveSeverityMap (defaultMap appMap : List (Int × String)) :
    List (Int × String) :=
  if appMap.length > 0 then appMap else defaultMap

/-- The label map built by the forwarder closure in `newForwarder`
(lines 254–275): defaults, overlaid with per-app labels, overlaid with the
five computed labels. -/
def forwarderLabels (defaultLabels appLabels : String → Option String)
    (defaultAlertName appAlertName : String)
    (defaultSevMap appSevMap : List (Int × String))
    (appName : String) (msgPriority : Int) (messageIdentifier : Nat) :
    String → Option String :=
  mapSet (mapSet (mapSet (mapSet (mapSet
    (mergeStringMap defaultLabels appLabels)
    "alertname" (resolveAlertName defaultAlertName appAlertName))
    "app" appName)
    "severity" (severityForPriority (resolveSeverityMap defaultSevMap appSevMap) msgPriority))
    "priority" (toString msgPriority))
    "gotilert_id" (toString messageIdentifier)

/-- C2: the final label map always binds `alertname`, `app`, `severity`,
`priority` and the forwarding-id key `gotilert_id` to exactly the computed
values, regardless of what the default or per-app label maps bind to those
keys. -/
theorem C2_computed_labels_win
    (defaultLabels appLabels : String → Option String)
    (defaultAlertName appAlertName : String)
    (defaultSevMap appSevMap : List (Int × String))
    (appName : String) (msgPriority : Int) (messageIdentifier : Nat) :
    forwarderLabels defaultLabels appLabels defaultAlertName appAlertName
        defaultSevMap appSevMap appName msgPriority messageIdentifier "alertname" =
      some (resolveAlertName defaultAlertName appAlertName) ∧
    forwarderLabels defaultLabels appLabels defaultAlertName appAlertName
        defaultSevMap appSevMap appName msgPriority messageIdentifier "app" =
      some appName ∧
    forwarderLabels defaultLabels appLabels defaultAlertName appAlertName
        defaultSevMap appSevMap appName msgPriority messageIdentifier "severity" =
      some (severityForPriority (resolveSeverityMap defaultSevMap appSevMap) msgPriority) ∧
    forwarderLabels defaultLabels appLabels defaultAlertName appAlertName
        defaultSevMap appSevMap appName msgPriority messageIdentifier "priority" =
      some (toString msgPriority) ∧
    forwarderLabels defaultLabels appLabels defaultAlertName appAlertName
        defaultSevMap appSevMap appName msgPriority messageIdentifier "gotilert_id" =
      some (toString messageIdentifier) := by
  refine ⟨?_, ?_, ?_, ?_, ?_⟩ <;> simp [forwarderLabels, mapSet]

/-! ## Delivery-client error model (`internal/alertmanager/client.go`)

Errors reaching `shouldRetry` from `postAlertsOnce` form a closed set of
shapes, modelled as a tagged variant (the spec's design note asks for
exactly this).  Each helper below records which `errors.Is`/`errors.As`
probe succeeds on that shape's wrapping chain in the Go source:

* `upstreamStatus code body` — `ErrUpstreamNon2xx` wrapping a
  `*statusError` (line 256);
* `transport*` and `tls*` — `ErrDoRequest` wrapping the error returned by
  `httpClient.Do` (line 232): a `net.Error` timeout, a `*net.OpError`
  connection failure, the caller's `context.Canceled` /
  `context.DeadlineExceeded`, an x509/TLS handshake error, or anything
  else;
* `encodeRequest` / `createRequest` / `readResponseBody` — the remaining
  sentinels of `postAlertsOnce`. -/

inductive ClientError where
  | upstreamStatus (code : Int) (body : String)
  | transportTimeout
  | transportConnFailure
  | transportCanceled
  | transportDeadline
  | tlsUnknownAuthority
  | tlsHostname
  | tlsCertInvalid
  | tlsSystemRoots
  | tlsRecordHeader
  | transportOther
  | encodeRequest
  | createRequest
  | readResponseBody
deriving DecidableEq

/-- `errors.Is(err, context.Canceled)` on the error's chain. -/
def isContextCanceledChain : ClientError → Bool
  | .transportCanceled => true
  | _ => false

/-- `errors.Is(err, context.DeadlineExceeded)` on the error's chain. -/
def isContextDeadlineChain : ClientError → Bool
  | .transportDeadline => true
  | _ => false

/-- `isPermanentTLSError` (lines 312–338): `errors.As` against the four
x509 verification error types and `tls.RecordHeaderError`. -/
def isPermanentTLSError : ClientError → Bool
  | .tlsUnknownAuthority => true
  | .tlsHostname => true
  | .tlsCertInvalid => true
  | .tlsSystemRoots => true
  | .tlsRecordHeader => true
  | _ => false

/-- `errors.As(err, &statusErr)` for `*statusError`, yielding code and body. -/
def asStatusError : ClientError → Option (Int × String)
  | .upstreamStatus code body => some (code, body)
  | _ => none

/-- `errors.Is(err, ErrDoRequest)`: true exactly for the shapes wrapped at
line 232 of the source. -/
def isDoRequestChain : ClientError → Bool
  | .upstreamStatus _ _ => false
  | .encodeRequest => false
  | .createRequest => false
  | .readResponseBody => false
  | _ => true

/-- `errors.As(err, &netErr) && netErr.Timeout()`: `*url.Error` implements
`net.Error`, and its `Timeout()` reports whether the wrapped transport
error was a timeout (true also for a deadline expiry, though `shouldRetry`
never reaches this probe in that case). -/
def asNetErrorTimeout : ClientError → Bool
  | .transportTimeout => true
  | .transportDeadline => true
  | _ => false

/-- `errors.As(err, &opErr)` for `*net.OpError` (connection refused/reset
and similar dial/read failures). -/
def asNetOpError : ClientError → Bool
  | .transportConnFailure => true
  | _ => false

/-- `shouldRetry` (lines 268–310), transcribed check by check; `none`
models a nil error. -/
def shouldRetry : Option ClientError → Bool
  | none => false
  | some err =>
    if isContextCanceledChain err || isContextDeadlineChain err then false
    else if isPermanentTLSError err then false
    else
      match asStatusError err with
      | some codeBody =>
        if codeBody.1 = 429 then true
        else decide (codeBody.1 ≥ 500)
      | none =>
        if isDoRequestChain err then
          if asNetErrorTimeout err then true
          else asNetOpError err
        else false

/-- C4 counterexample: the code also retries upstream status codes above
599 (`code >= http.StatusInternalServerError` has no upper bound), e.g.
a status-600 response, which the claim's closed set `{429} ∪ [500, 599]`
excludes. -/
theorem C4_counterexample :
    shouldRetry (some (.upstreamStatus 600 "")) = true ∧
    ¬((600 : Int) = 429 ∨ ((500 : Int) ≤ 600 ∧ (600 : Int) ≤ 599)) := by
  constructor
  · rfl
  · decide

/-- C4 (amended): `shouldRetry` returns true exactly for an upstream
status error whose code is 429 or at least 500 (not only 500–599), or a
transport error under the do-request sentinel that is a timeout or a
connection failure; it returns false for every other input — other
non-2xx statuses below 500, caller cancellation/deadline,
certificate-verification and TLS record-header errors, and unclassified
errors (fail closed). -/
theorem C4_retry_classifier (e : Option ClientError) :
    shouldRetry e = true ↔
      ((∃ code body, e = some (.upstreamStatus code body) ∧
          (code = 429 ∨ 500 ≤ code)) ∨
        e = some .transportTimeout ∨ e = some .transportConnFailure) := by
  match e with
  | none => simp [shouldRetry]
  | some err =>
    cases err with
    | upstreamStatus code body =>
      simp only [shouldRetry, isContextCanceledChain, isContextDeadlineChain,
        isPermanentTLSError, asStatusError, Bool.or_self, Bool.false_eq_true,
        if_false]
      constructor
      · intro h
        refine Or.inl ⟨code, body, rfl, ?_⟩
        by_cases hc : code = 429
        · exact Or.inl hc
        · simp only [hc, if_false, decide_eq_true_eq] at h
          exact Or.inr h
      · rintro (⟨c, b, heq, hc⟩ | h | h)
        · obtain ⟨hc1, hb1⟩ : code = c ∧ body = b := by
            simpa using heq
          subst hc1; subst hb1
          rcases hc with hc | hc
          · simp [hc]
          · by_cases h429 : code = 429 <;> simp [h429, hc]
        · simp at h
        · simp at h
    | transportTimeout => simp [shouldRetry, isContextCanceledChain,
        isContextDeadlineChain, isPermanentTLSError, asStatusError,
        isDoRequestChain, asNetErrorTimeout]
    | transportConnFailure => simp [shouldRetry, isContextCanceledChain,
        isContextDeadlineChain, isPermanentTLSError, asStatusError,
        isDoRequestChain, asNetErrorTimeout, asNetOpError]
    | transportCanceled => simp [shouldRetry, isContextCanceledChain]
    | transportDeadline => simp [shouldRetry, isContextCanceledChain,
        isContextDeadlineChain]
    | tlsUnknownAuthority => simp [shouldRetry, isContextCanceledChain,
        isContextDeadlineChain, isPermanentTLSError]
    | tlsHostname => simp [shouldRetry, isContextCanceledChain,
        isContextDeadlineChain, isPermanentTLSError]
    | tlsCertInvalid => simp [shouldRetry, isContextCanceledChain,
        isContextDeadlineChain, isPermanentTLSError]
    | tlsSystemRoots => simp [shouldRetry, isContextCanceledChain,
        isContextDeadlineChain, isPermanentTLSError]
    | tlsRecordHeader => simp [shouldRetry, isContextCanceledChain,
        isContextDeadlineChain, isPermanentTLSError]
    | transportOther => simp [shouldRetry, isContextCanceledChain,
        isContextDeadlineChain, isPermanentTLSError, asStatusError,
        isDoRequestChain, asNetErrorTimeout, asNetOpError]
    | encodeRequest => simp [shouldRetry, isContextCanceledChain,
        isContextDeadlineChain, isPermanentTLSError, asStatusError,
        isDoRequestChain]
    | createRequest => simp [shouldRetry, isContextCanceledChain,
        isContextDeadlineChain, isPermanentTLSError, asStatusError,
        isDoRequestChain]
    | readResponseBody => simp [shouldRetry, isContextCanceledChain,
        isContextDeadlineChain, isPermanentTLSError, asStatusError,
        isDoRequestChain]

/-! ## Backoff (`internal/alertmanager/client.go`, `computeBackoff`)

`time.Duration` is an `int64` nanosecond count; `backoff *= 2` wraps at
the int64 boundary, modelled by `wrap64`. -/

/-- Two's-complement wrap of an integer into the int64 range. -/
def wrap64 (x : Int) : Int := (x + 2 ^ 63) % 2 ^ 64 - 2 ^ 63

/-- The `for i := 1; i < attempt; i++` doubling loop of `computeBackoff`
(lines 345–351): `k` remaining iterations; doubling returns the maximum as
soon as it is reached, and the post-loop `backoff > maxBackoff` check
closes the function. -/
def backoffLoop : Nat → Int → Int → Int
  | 0, backoff, maxBackoff => if backoff > maxBackoff then maxBackoff else backoff
  | k + 1, backoff, maxBackoff =>
    let doubled := wrap64 (backoff * 2)
    if doubled ≥ maxBackoff then maxBackoff
    else backoffLoop k doubled maxBackoff

/-- `computeBackoff` (lines 340–358): the initial value for attempt ≤ 1,
else the doubling loop run `attempt - 1` times. -/
def computeBackoff (attempt : Nat) (initial maxBackoff : Int) : Int :=
  if attempt ≤ 1 then initial
  else backoffLoop (attempt - 1) initial maxBackoff

/-- `defaultRetryMaxAttempts` (line 46). -/
def defaultRetryMaxAttempts : Nat := 3

/-- `defaultRetryInitial = 200 * time.Millisecond` in nanoseconds. -/
def defaultRetryInitial : Int := 200 * 1000000

/-- `defaultRetryMaxBackoff = 1 * time.Second` in nanoseconds. -/
def defaultRetryMaxBackoff : Int := 1000 * 1000000

theorem wrap64_eq_self {x : Int} (h1 : -(2 ^ 63) ≤ x) (h2 : x < 2 ^ 63) :
    wrap64 x = x := by
  unfold wrap64
  have hlt : x + 2 ^ 63 < 2 ^ 64 := by omega
  have hge : 0 ≤ x + 2 ^ 63 := by omega
  rw [Int.emod_eq_of_lt hge hlt]
  omega

/-- Loop invariant: absent overflow, the loop computes the capped power. -/
theorem backoffLoop_min (k : Nat) :
    ∀ backoff maxBackoff : Int, 0 < backoff → backoff ≤ maxBackoff →
      maxBackoff < 2 ^ 62 →
      backoffLoop k backoff maxBackoff = min (backoff * 2 ^ k) maxBackoff := by
  induction k with
  | zero =>
    intro b m hb hbm hm
    simp only [backoffLoop, pow_zero, mul_one]
    omega
  | succ k ih =>
    intro b m hb hbm hm
    have hw : wrap64 (b * 2) = b * 2 := by
      apply wrap64_eq_self <;> omega
    simp only [backoffLoop, hw]
    by_cases hcap : b * 2 ≥ m
    · have h2k : (1 : Int) ≤ 2 ^ k := one_le_pow₀ (by norm_num)
      have hmono : b * 2 ≤ b * 2 * 2 ^ k := by nlinarith
      have : b * 2 ^ (k + 1) = b * 2 * 2 ^ k := by ring
      rw [if_pos hcap]
      omega
    · push_neg at hcap
      rw [if_neg (by omega)]
      rw [ih (b * 2) m (by omega) (by omega) hm]
      have : b * 2 * 2 ^ k = b * 2 ^ (k + 1) := by ring
      rw [this]

/-- C5 counterexample: for attempt 1 the code returns the initial value
uncapped, so with `initial = 5 ns`, `max = 3 ns` it returns 5 while the
claim's formula `min(i·2^(n-1), m)` gives 3. -/
theorem C5_counterexample :
    computeBackoff 1 5 3 = 5 ∧
    computeBackoff 1 5 3 ≠ min (5 * 2 ^ (1 - 1)) 3 := by
  constructor
  · rfl
  · decide

/-- C5 (amended): for every attempt `n ≥ 1`, whenever the initial backoff
is positive and no larger than the maximum, and the maximum is below
2^62 ns (so the int64 doubling cannot overflow),
`computeBackoff n i m = min(i·2^(n-1), m)`; instantiated at the defaults
this gives 200 ms, 400 ms, 800 ms, then 1 s. -/
theorem C5_backoff_formula (n : Nat) (i m : Int)
    (hn : 1 ≤ n) (hi : 0 < i) (him : i ≤ m) (hm : m < 2 ^ 62) :
    computeBackoff n i m = min (i * 2 ^ (n - 1)) m := by
  unfold computeBackoff
  by_cases h1 : n ≤ 1
  · have : n = 1 := by omega
    subst this
    simp only [if_pos (by omega : (1 : Nat) ≤ 1)]
    simp only [Nat.sub_self, pow_zero, mul_one]
    omega
  · rw [if_neg h1]
    exact backoffLoop_min (n - 1) i m hi him hm

/-- C5 witness: the defaults at attempt 4 give the 1 s cap. -/
theorem C5_backoff_formula_witness :
    computeBackoff 4 defaultRetryInitial defaultRetryMaxBackoff =
      min (defaultRetryInitial * 2 ^ (4 - 1)) defaultRetryMaxBackoff :=
  C5_backoff_formula 4 defaultRetryInitial defaultRetryMaxBackoff
    (by decide) (by decide) (by decide) (by decide)

/-! ## Retry loop (`internal/alertmanager/client.go`, `PostAlerts`)

`PostAlerts` is modelled as a deterministic loop over an environment of
oracles describing one run: `outcome n` is the result of the `n`-th
`postAlertsOnce` call (`none` = 2xx success), `ctxErrAfter n` is the
caller context's `ctx.Err()` as observed right after attempt `n` fails,
and `sleepInterrupt n` is the cancellation (if any) that fires during the
backoff sleep after attempt `n` — the `select` inside `sleepWithContext`
(lines 360–370) either observes `ctx.Done()` (`some cause`) or the timer
(`none`).  The result records how many attempts were performed and which
return statement fired. -/

inductive CtxCause where
  | canceled
  | deadlineExceeded
deriving DecidableEq

structure PostEnv where
  outcome : Nat → Option ClientError
  ctxErrAfter : Nat → Option CtxCause
  sleepInterrupt : Nat → Option CtxCause

inductive PostOutcome where
  | success
  | failure (e : ClientError)
  | ctxAborted (c : CtxCause)
  | sleepAborted (c : CtxCause)
  | retriesExhausted
deriving DecidableEq

/-- The body of `PostAlerts`' `for attempt := 1; attempt <= attempts`
loop (lines 163–186), with `fuel` the remaining loop iterations.  Fuel
running out corresponds to the loop exiting normally and reaching the
trailing `return ErrDoRequest` (line 188). -/
def postAlertsLoop (env : PostEnv) (attempts : Nat) : Nat → Nat → Nat × PostOutcome
  | attempt, 0 => (attempt - 1, .retriesExhausted)
  | attempt, fuel + 1 =>
    match env.outcome attempt with
    | none => (attempt, .success)
    | some err =>
      match env.ctxErrAfter attempt with
      | some cause => (attempt, .ctxAborted cause)
      | none =>
        if !shouldRetry (some err) || attempt == attempts then
          (attempt, .failure err)
        else
          match env.sleepInterrupt attempt with
          | some cause => (attempt, .sleepAborted cause)
          | none => postAlertsLoop env attempts (attempt + 1) fuel

/-- `PostAlerts` (lines 156–189): `attempts = max(retryMaxAttempts, 1)`,
loop from attempt 1. -/
def PostAlerts (env : PostEnv) (retryMaxAttempts : Nat) : Nat × PostOutcome :=
  postAlertsLoop env (max retryMaxAttempts 1) 1 (max retryMaxAttempts 1)

/-- Upstream answers 500, 500, then 200; the caller context never fires. -/
def envFiveHundredTwice : PostEnv where
  outcome n := if n ≤ 2 then some (.upstreamStatus 500 "") else none
  ctxErrAfter _ := none
  sleepInterrupt _ := none

/-- Upstream answers 400 on the first attempt; the context never fires. -/
def envBadRequest : PostEnv where
  outcome _ := some (.upstreamStatus 400 "")
  ctxErrAfter _ := none
  sleepInterrupt _ := none

/-- C3: with the default budget of 3 attempts and an uncancelled context,
a 500/500/200 upstream yields exactly 3 attempts and success, and a 400
upstream yields exactly 1 attempt and a non-retried failure. -/
theorem C3_attempt_counts :
    PostAlerts envFiveHundredTwice defaultRetryMaxAttempts = (3, .success) ∧
    PostAlerts envBadRequest defaultRetryMaxAttempts =
      (1, .failure (.upstreamStatus 400 "")) := by
  constructor
  · rfl
  · rfl

/-- C6: once the caller context is done, no further attempt happens —
(1) when an attempt fails and `ctx.Err()` is already non-nil, the loop
returns a cancellation-classified failure at that same attempt; and
(2) when a retryable, non-final failed attempt is followed by a
cancellation during the backoff sleep, the sleep aborts and the loop
returns a cancellation-classified failure instead of a further attempt. -/
theorem C6_cancellation_stops_retry :
    (∀ (env : PostEnv) (attempts n fuel : Nat) (err : ClientError) (c : CtxCause),
      env.outcome n = some err → env.ctxErrAfter n = some c →
      postAlertsLoop env attempts n (fuel + 1) = (n, .ctxAborted c)) ∧
    (∀ (env : PostEnv) (attempts n fuel : Nat) (err : ClientError) (c : CtxCause),
      env.outcome n = some err → env.ctxErrAfter n = none →
      shouldRetry (some err) = true → n ≠ attempts →
      env.sleepInterrupt n = some c →
      postAlertsLoop env attempts n (fuel + 1) = (n, .sleepAborted c)) := by
  constructor
  · intro env attempts n fuel err c hout hctx
    simp [postAlertsLoop, hout, hctx]
  · intro env attempts n fuel err c hout hctx hretry hne hsleep
    have hbeq : (n == attempts) = false := by
      simp [hne]
    simp [postAlertsLoop, hout, hctx, hretry, hbeq, hsleep]

/-- Environment for the C6 witness: every attempt fails with a 500; the
context is observed done after attempt 1; a cancellation fires during the
sleep after attempt 2. -/
def envC6Witness : PostEnv where
  outcome _ := some (.upstreamStatus 500 "")
  ctxErrAfter n := if n = 1 then some .canceled else none
  sleepInterrupt _ := some .canceled

/-- C6 witness: both parts applied at concrete attempts of `envC6Witness`. -/
theorem C6_cancellation_stops_retry_witness :
    postAlertsLoop envC6Witness 3 1 3 = (1, .ctxAborted .canceled) ∧
    postAlertsLoop envC6Witness 3 2 2 = (2, .sleepAborted .canceled) :=
  ⟨C6_cancellation_stops_retry.1 envC6Witness 3 1 2 (.upstreamStatus 500 "")
      .canceled rfl rfl,
    C6_cancellation_stops_retry.2 envC6Witness 3 2 1 (.upstreamStatus 500 "")
      .canceled rfl rfl rfl (by decide) rfl⟩

/-! ## Summary selection (`cmd/gotilert/main.go`, `pickSummary`)

`pickSummary` indexes and measures its strings in BYTES
(`len(trimmedMessage)`, `trimmedMessage[:120]`), so here Go strings are
modelled as lists of byte values.  `goTrimSpace` transcribes
`strings.TrimSpace`: an ASCII fast path on both ends that falls back to
rune-wise trimming (via a UTF-8 decoder) as soon as a non-ASCII byte is
met. -/

/-- The Unicode replacement character `utf8.RuneError`. -/
def runeError : Nat := 0xFFFD

/-- A UTF-8 continuation byte. -/
def contByte (b : Nat) : Bool := 0x80 ≤ b && b ≤ 0xBF

/-- `utf8.DecodeRune` on the leading bytes: returns the code point and the
number of bytes consumed; `(RuneError, 1)` for an invalid or truncated
sequence, `(RuneError, 0)` for empty input. -/
def decodeRune : List Nat → Nat × Nat
  | [] => (runeError, 0)
  | b0 :: rest =>
    if b0 < 0x80 then (b0, 1)
    else if b0 < 0xC2 then (runeError, 1)
    else if b0 < 0xE0 then
      match rest with
      | b1 :: _ =>
        if contByte b1 then ((b0 - 0xC0) * 64 + (b1 - 0x80), 2)
        else (runeError, 1)
      | [] => (runeError, 1)
    else if b0 < 0xF0 then
      match rest with
      | b1 :: b2 :: _ =>
        if ((if b0 = 0xE0 then 0xA0 else 0x80) ≤ b1 &&
            b1 ≤ (if b0 = 0xED then 0x9F else 0xBF)) && contByte b2 then
          ((b0 - 0xE0) * 4096 + (b1 - 0x80) * 64 + (b2 - 0x80), 3)
        else (runeError, 1)
      | _ => (runeError, 1)
    else if b0 ≤ 0xF4 then
      match rest with
      | b1 :: b2 :: b3 :: _ =>
        if ((if b0 = 0xF0 then 0x90 else 0x80) ≤ b1 &&
            b1 ≤ (if b0 = 0xF4 then 0x8F else 0xBF)) && contByte b2 &&
            contByte b3 then
          ((b0 - 0xF0) * 262144 + (b1 - 0x80) * 4096 + (b2 - 0x80) * 64 +
            (b3 - 0x80), 4)
        else (runeError, 1)
      | _ => (runeError, 1)
    else (runeError, 1)

/-- `utf8.RuneStart`: not a continuation byte. -/
def runeStart (b : Nat) : Bool := !(0x80 ≤ b && b ≤ 0xBF)

/-- `utf8.DecodeLastRune`: scan back at most four bytes for a rune start,
decode from there and check the rune spans exactly to the end. -/
def decodeLastRune (s : List Nat) : Nat × Nat :=
  match s.getLast? with
  | none => (runeError, 0)
  | some lastB =>
    if lastB < 0x80 then (lastB, 1)
    else
      let e : Int := s.length
      let lim : Int := max (e - 4) 0
      let cand : Int :=
        if e - 2 ≥ lim && runeStart (s.getD (e - 2).toNat 0) then e - 2
        else if e - 3 ≥ lim && runeStart (s.getD (e - 3).toNat 0) then e - 3
        else if e - 4 ≥ lim && runeStart (s.getD (e - 4).toNat 0) then e - 4
        else lim - 1
      let start : Nat := (max cand 0).toNat
      let rs := decodeRune (s.drop start)
      if start + rs.2 = s.length then rs else (runeError, 1)

/-- `strings.TrimLeftFunc(s, unicode.IsSpace)` as a fuelled loop; each
step consumes at least one byte, so fuel `s.length` never runs out. -/
def trimLeftFuncLoop : Nat → List Nat → List Nat
  | _, [] => []
  | 0, _ => []
  | fuel + 1, s =>
    let rs := decodeRune s
    if isSpaceRune rs.1 then trimLeftFuncLoop fuel (s.drop rs.2) else s

def trimLeftFuncSpace (s : List Nat) : List Nat := trimLeftFuncLoop s.length s

/-- `strings.TrimRightFunc(s, unicode.IsSpace)` as a fuelled loop. -/
def trimRightFuncLoop : Nat → List Nat → List Nat
  | _, [] => []
  | 0, _ => []
  | fuel + 1, s =>
    let rs := decodeLastRune s
    if isSpaceRune rs.1 then trimRightFuncLoop fuel (s.take (s.length - rs.2))
    else s

def trimRightFuncSpace (s : List Nat) : List Nat := trimRightFuncLoop s.length s

/-- `strings.TrimFunc(s, unicode.IsSpace)`. -/
def trimFuncSpace (s : List Nat) : List Nat :=
  trimRightFuncSpace (trimLeftFuncSpace s)

/-- The `asciiSpace` table of `strings.TrimSpace`. -/
def asciiSpaceByte (b : Nat) : Bool :=
  b == 9 || b == 10 || b == 11 || b == 12 || b == 13 || b == 32

/-- The right-to-left ASCII scan of `strings.TrimSpace`, on the reversed
remainder: a non-ASCII byte falls back to rune-wise right trimming of the
un-reversed remainder. -/
def goTrimRightRev : List Nat → List Nat
  | [] => []
  | c :: r =>
    if 128 ≤ c then (trimRightFuncSpace ((c :: r).reverse)).reverse
    else if asciiSpaceByte c then goTrimRightRev r
    else c :: r

/-- `strings.TrimSpace` on the byte model. -/
def goTrimSpace : List Nat → List Nat
  | [] => []
  | c :: rest =>
    if 128 ≤ c then trimFuncSpace (c :: rest)
    else if asciiSpaceByte c then goTrimSpace rest
    else (goTrimRightRev ((c :: rest).reverse)).reverse

/-- The UTF-8 bytes of the truncation marker `"…"` appended at line 397. -/
def ellipsisBytes : List Nat := [226, 128, 166]

/-- `pickSummary` (lines 381–398): trimmed title if non-empty; else the
app name if the trimmed message is empty; else the trimmed message,
truncated to its first 120 BYTES plus the marker when longer than 120
bytes. -/
def pickSummary (appName title message : List Nat) : List Nat :=
  let trimmedTitle := goTrimSpace title
  if trimmedTitle ≠ [] then trimmedTitle
  else
    let trimmedMessage := goTrimSpace message
    if trimmedMessage = [] then appName
    else if trimmedMessage.length ≤ 120 then trimmedMessage
    else trimmedMessage.take 120 ++ ellipsisBytes

/-- `utf8.RuneCountInString` as a fuelled loop (counts characters). -/
def runeCountLoop : Nat → List Nat → Nat
  | _, [] => 0
  | 0, _ => 0
  | fuel + 1, s => 1 + runeCountLoop fuel (s.drop (decodeRune s).2)

def utf8RuneCount (s : List Nat) : Nat := runeCountLoop s.length s

/-- 61 copies of the two-byte character é (U+00E9): 61 characters in 122
bytes. -/
def messageSixtyOneEAcute : List Nat := (List.replicate 61 [195, 169]).flatten

set_option maxRecDepth 100000

/-- C7 counterexample: the truncation threshold counts bytes, not
characters.  A message of 61 é characters (122 bytes, no whitespace) has
only 61 ≤ 120 characters, so the claim requires the summary to be the
trimmed message unchanged, but the code truncates it to its first 120
bytes and appends the marker. -/
theorem C7_counterexample :
    utf8RuneCount (goTrimSpace messageSixtyOneEAcute) = 61 ∧
    (goTrimSpace messageSixtyOneEAcute).length = 122 ∧
    pickSummary [97] [] messageSixtyOneEAcute ≠ goTrimSpace messageSixtyOneEAcute ∧
    pickSummary [97] [] messageSixtyOneEAcute =
      (goTrimSpace messageSixtyOneEAcute).take 120 ++ ellipsisBytes := by
  refine ⟨by decide, by decide, by decide, by decide⟩

/-- C7 (amended): the summary is the trimmed title when non-empty after
trimming; otherwise the trimmed message, truncated to its first 120 BYTES
followed by the truncation marker when the trimmed message is longer than
120 bytes; otherwise the app name.  In particular an empty title with a
message of 130 `a` bytes yields the first 120 `a`s plus the marker, and
title `"x"` yields `"x"` for any message. -/
theorem C7_summary_selection :
    (∀ a t m : List Nat, goTrimSpace t ≠ [] → pickSummary a t m = goTrimSpace t) ∧
    (∀ a t m : List Nat, goTrimSpace t = [] → goTrimSpace m = [] →
      pickSummary a t m = a) ∧
    (∀ a t m : List Nat, goTrimSpace t = [] → goTrimSpace m ≠ [] →
      (goTrimSpace m).length ≤ 120 → pickSummary a t m = goTrimSpace m) ∧
    (∀ a t m : List Nat, goTrimSpace t = [] → 120 < (goTrimSpace m).length →
      pickSummary a t m = (goTrimSpace m).take 120 ++ ellipsisBytes) ∧
    pickSummary [97] [] (List.replicate 130 97) =
      List.replicate 120 97 ++ ellipsisBytes ∧
    (∀ a m : List Nat, pickSummary a [120] m = [120]) := by
  refine ⟨?_, ?_, ?_, ?_, ?_, ?_⟩
  · intro a t m h
    simp [pickSummary, h]
  · intro a t m ht hm
    simp [pickSummary, ht, hm]
  · intro a t m ht hm hlen
    simp [pickSummary, ht, hm, hlen]
  · intro a t m ht hlen
    have hm : goTrimSpace m ≠ [] := by
      intro hnil
      rw [hnil] at hlen
      simp at hlen
    have hnot : ¬ (goTrimSpace m).length ≤ 120 := by omega
    simp [pickSummary, ht, hm, hnot]
  · decide
  · intro a m
    rfl

/-- C7 witness: the first clause of the amended claim at a concrete
non-blank title. -/
theorem C7_summary_selection_witness :
    pickSummary [97] [120] [99] = goTrimSpace [120] :=
  C7_summary_selection.1 [97] [120] [99] (by decide)

/-! ## Token extraction (`internal/server/message.go`, `extractToken`)

The request is modelled by the three strings the function reads;
`Header.Get` and `Query().Get` return `""` when the header/parameter is
absent.  The prefix check works on the lowered string; dropping
`len("bearer ") = 7` bytes equals dropping 7 characters because a
successful prefix check forces the first seven characters to be ASCII. -/

structure GoRequest where
  xGotifyKeyHeader : String
  tokenQueryParam : String
  authHeaderValue : String

/-- `extractToken` (lines 133–160): dedicated header, then query
parameter, then `Authorization: Bearer`, first non-empty trimmed value
wins; empty string when no token is resolvable. -/
def extractToken (r : GoRequest) : String :=
  let headerToken := trimSpaceStr r.xGotifyKeyHeader
  if headerToken ≠ "" then headerToken
  else
    let queryToken := trimSpaceStr r.tokenQueryParam
    if queryToken ≠ "" then queryToken
    else
      let authHeader := trimSpaceStr r.authHeaderValue
      if authHeader = "" then ""
      else if (toLowerGo authHeader).toList.take 7 = "bearer ".toList then
        trimSpaceStr (String.mk (authHeader.toList.drop 7))
      else ""

/-- C8: token extraction follows the fixed order header → query → bearer:
the trimmed dedicated header wins when non-empty; else the trimmed query
parameter when non-empty; else the trimmed remainder of an Authorization
value with the case-insensitive `"bearer "` prefix; else the empty
string. -/
theorem C8_token_precedence :
    (∀ r : GoRequest, trimSpaceStr r.xGotifyKeyHeader ≠ "" →
      extractToken r = trimSpaceStr r.xGotifyKeyHeader) ∧
    (∀ r : GoRequest, trimSpaceStr r.xGotifyKeyHeader = "" →
      trimSpaceStr r.tokenQueryParam ≠ "" →
      extractToken r = trimSpaceStr r.tokenQueryParam) ∧
    (∀ r : GoRequest, trimSpaceStr r.xGotifyKeyHeader = "" →
      trimSpaceStr r.tokenQueryParam = "" →
      (toLowerGo (trimSpaceStr r.authHeaderValue)).toList.take 7 =
        "bearer ".toList →
      extractToken r =
        trimSpaceStr (String.mk ((trimSpaceStr r.authHeaderValue).toList.drop 7))) ∧
    (∀ r : GoRequest, trimSpaceStr r.xGotifyKeyHeader = "" →
      trimSpaceStr r.tokenQueryParam = "" →
      (toLowerGo (trimSpaceStr r.authHeaderValue)).toList.take 7 ≠
        "bearer ".toList →
      extractToken r = "") := by
  refine ⟨?_, ?_, ?_, ?_⟩
  · intro r h
    simp [extractToken, h]
  · intro r h1 h2
    simp [extractToken, h1, h2]
  · intro r h1 h2 h3
    have hne : trimSpaceStr r.authHeaderValue ≠ "" := by
      intro hnil
      rw [hnil] at h3
      simp [toLowerGo] at h3
    simp only [extractToken]
    rw [if_neg (by simp [h1]), if_neg (by simp [h2]), if_neg hne, if_pos h3]
  · intro r h1 h2 h3
    by_cases hne : trimSpaceStr r.authHeaderValue = ""
    · simp [extractToken, h1, h2, hne]
    · simp only [extractToken]
      rw [if_neg (by simp [h1]), if_neg (by simp [h2]), if_neg hne, if_neg h3]

/-- C8 witness: all three carriers set to different tokens resolves to the
header's token. -/
theorem C8_token_precedence_witness :
    extractToken
        { xGotifyKeyHeader := "HEADER", tokenQueryParam := "QUERY",
          authHeaderValue := "Bearer BEARER" } =
      trimSpaceStr "HEADER" :=
  C8_token_precedence.1
    { xGotifyKeyHeader := "HEADER", tokenQueryParam := "QUERY",
      authHeaderValue := "Bearer BEARER" } (by decide)

/-! ## Forwarding-id counter (`internal/server/message.go`, `messageID`)

`var messageID atomic.Uint64` starts at zero; each accepted message
performs one `messageID.Add(1)` (line 70) and receives the new value.
`sync/atomic` guarantees the concurrent increments linearize into a
sequence; `messageIDSeq n` is the value handed to the `n`-th accepted
message in that linearization, with uint64 wrap-around modelled
explicitly. -/

/-- One `messageID.Add(1)`: uint64 increment of the stored value. -/
def messageIDAdd (v : Nat) : Nat := (v + 1) % 2 ^ 64

/-- The value returned by the `n`-th `messageID.Add(1)` (so
`messageIDSeq 0 = 0` is the initial stored value, never handed out). -/
def messageIDSeq : Nat → Nat
  | 0 => 0
  | n + 1 => messageIDAdd (messageIDSeq n)

theorem messageIDSeq_eq_mod (n : Nat) : messageIDSeq n = n % 2 ^ 64 := by
  induction n with
  | zero => rfl
  | succ n ih =>
    show messageIDAdd (messageIDSeq n) = (n + 1) % 2 ^ 64
    rw [ih]
    unfold messageIDAdd
    omega

/-- C9: any two distinct accepted messages receive distinct forwarding-id
values (stated for the first 2^64 acceptances, beyond which the uint64
counter would wrap — unreachable in a process lifetime). -/
theorem C9_distinct_forwarding_ids (i j : Nat)
    (hi1 : 1 ≤ i) (hi2 : i ≤ 2 ^ 64) (hj1 : 1 ≤ j) (hj2 : j ≤ 2 ^ 64)
    (hne : i ≠ j) : messageIDSeq i ≠ messageIDSeq j := by
  rw [messageIDSeq_eq_mod, messageIDSeq_eq_mod]
  omega

/-- C9 witness: the first two accepted messages get ids 1 and 2. -/
theorem C9_distinct_forwarding_ids_witness :
    messageIDSeq 1 ≠ messageIDSeq 2 :=
  C9_distinct_forwarding_ids 1 2 (by decide) (by decide) (by decide)
    (by decide) (by decide)

/-! ## Extras extraction (`internal/gotify/extras_annotations.go`)

The opaque `extras` JSON tree (`map[string]any`) is modelled as a tagged
variant; a `nil` Go map and an empty map both have `len == 0` and are both
modelled by `[]`.  The result map is modelled as an association list whose
four possible keys are pairwise distinct. -/

inductive ExtraValue where
  | str (s : String)
  | num (n : Int)
  | boolean (b : Bool)
  | arr (elems : List ExtraValue)
  | obj (fields : List (String × ExtraValue))

/-- Lookup in a `map[string]any` model. -/
def extrasFieldLookup : List (String × ExtraValue) → String → Option ExtraValue
  | [], _ => none
  | (k, v) :: rest, key => if k = key then some v else extrasFieldLookup rest key

/-- The `for index := range path` walk of `extrasStringAtPath`
(lines 79–93): each step requires the current node to be a map containing
the key. -/
def extrasWalk : ExtraValue → List String → Option ExtraValue
  | cur, [] => some cur
  | cur, key :: restPath =>
    match cur with
    | .obj fields =>
      match extrasFieldLookup fields key with
      | some next => extrasWalk next restPath
      | none => none
    | _ => none

/-- `extrasStringAtPath` (lines 72–106): walk the fixed path; the terminal
value must be a string that is non-empty after trimming. -/
def extrasStringAtPath (extras : List (String × ExtraValue)) (path : List String) :
    Option String :=
  if extras.isEmpty || path.isEmpty then none
  else
    match extrasWalk (.obj extras) path with
    | some (.str s) =>
      if trimSpaceStr s = "" then none else some (trimSpaceStr s)
    | _ => none

/-- An optional entry of the result map. -/
def optEntry (key : String) : Option String → List (String × String)
  | some v => [(key, v)]
  | none => []

/-- `ExtrasAnnotations` (lines 42–70): empty input gives the empty map;
otherwise up to four entries at the four well-known annotation keys. -/
def ExtrasAnnotations (extras : List (String × ExtraValue)) :
    List (String × String) :=
  if extras.isEmpty then []
  else
    optEntry "gotify_content_type"
        (extrasStringAtPath extras ["client::display", "contentType"]) ++
      optEntry "gotify_click_url"
        (extrasStringAtPath extras ["client::notification", "click", "url"]) ++
      optEntry "gotify_big_image_url"
        (extrasStringAtPath extras ["client::notification", "bigImageUrl"]) ++
      optEntry "gotify_on_receive_intent_url"
        (extrasStringAtPath extras ["android::action", "onReceive", "intentUrl"])

/-- Lookup in the result map. -/
def annLookup : List (String × String) → String → Option String
  | [], _ => none
  | (k, v) :: rest, key => if k = key then some v else annLookup rest key

/-- The four well-known annotation keys. -/
def wellKnownAnnKeys : List String :=
  ["gotify_content_type", "gotify_click_url", "gotify_big_image_url",
    "gotify_on_receive_intent_url"]

/-- A successful path extraction is non-empty (it survived the trim
guard). -/
theorem extrasStringAtPath_ne_empty {extras : List (String × ExtraValue)}
    {path : List String} {v : String}
    (h : extrasStringAtPath extras path = some v) : v ≠ "" := by
  unfold extrasStringAtPath at h
  by_cases hempty : extras.isEmpty || path.isEmpty
  · simp [hempty] at h
  · rw [if_neg hempty] at h
    match hw : extrasWalk (.obj extras) path with
    | some (.str s) =>
      rw [hw] at h
      by_cases ht : trimSpaceStr s = ""
      · simp [ht] at h
      · simp [ht] at h
        subst h
        exact ht
    | some (.num n) => rw [hw] at h; simp at h
    | some (.boolean b) => rw [hw] at h; simp at h
    | some (.arr elems) => rw [hw] at h; simp at h
    | some (.obj fields) => rw [hw] at h; simp at h
    | none => rw [hw] at h; simp at h

/-- Empty extras extract nothing on any path. -/
theorem extrasStringAtPath_nil (path : List String) :
    extrasStringAtPath [] path = none := by
  simp [extrasStringAtPath]

/-- C10: for every extras tree (`[]` models both nil and empty), the
result's keys all lie in the four well-known annotation keys, every bound
value is non-empty, and the binding at each well-known key is exactly the
trimmed string extracted at that key's fixed path (so a path whose
terminal value is not a string, trims to empty, or passes through a
missing or non-map node contributes no entry). -/
theorem C10_extras_extraction (extras : List (String × ExtraValue)) :
    (∀ kv ∈ ExtrasAnnotations extras, kv.1 ∈ wellKnownAnnKeys) ∧
    (∀ kv ∈ ExtrasAnnotations extras, kv.2 ≠ "") ∧
    annLookup (ExtrasAnnotations extras) "gotify_content_type" =
      extrasStringAtPath extras ["client::display", "contentType"] ∧
    annLookup (ExtrasAnnotations extras) "gotify_click_url" =
      extrasStringAtPath extras ["client::notification", "click", "url"] ∧
    annLookup (ExtrasAnnotations extras) "gotify_big_image_url" =
      extrasStringAtPath extras ["client::notification", "bigImageUrl"] ∧
    annLookup (ExtrasAnnotations extras) "gotify_on_receive_intent_url" =
      extrasStringAtPath extras ["android::action", "onReceive", "intentUrl"] := by
  by_cases hnil : extras.isEmpty
  · have hext : extras = [] := by
      cases extras with
      | nil => rfl
      | cons kv rest => simp at hnil
    subst hext
    refine ⟨by simp [ExtrasAnnotations], by simp [ExtrasAnnotations], ?_, ?_, ?_, ?_⟩ <;>
      simp [ExtrasAnnotations, annLookup, extrasStringAtPath_nil]
  · unfold ExtrasAnnotations
    rw [if_neg hnil]
    cases h1 : extrasStringAtPath extras ["client::display", "contentType"] <;>
    cases h2 : extrasStringAtPath extras ["client::notification", "click", "url"] <;>
    cases h3 : extrasStringAtPath extras ["client::notification", "bigImageUrl"] <;>
    cases h4 : extrasStringAtPath extras ["android::action", "onReceive", "intentUrl"] <;>
      refine ⟨?_, ?_, ?_, ?_, ?_, ?_⟩ <;>
      simp_all [optEntry, annLookup, wellKnownAnnKeys] <;>
      first
        | exact extrasStringAtPath_ne_empty h1
        | exact extrasStringAtPath_ne_empty h2
        | exact extrasStringAtPath_ne_empty h3
        | exact extrasStringAtPath_ne_empty h4
        | constructor <;>
            first
              | exact extrasStringAtPath_ne_empty h1
              | exact extrasStringAtPath_ne_empty h2
              | exact extrasStringAtPath_ne_empty h3
              | exact extrasStringAtPath_ne_empty h4
              | constructor <;>
                  first
                    | exact extrasStringAtPath_ne_empty h1
                    | exact extrasStringAtPath_ne_empty h2
                    | exact extrasStringAtPath_ne_empty h3
                    | exact extrasStringAtPath_ne_empty h4
                    | constructor <;>
                        first
                          | exact extrasStringAtPath_ne_empty h1
                          | exact extrasStringAtPath_ne_empty h2
                          | exact extrasStringAtPath_ne_empty h3
                          | exact extrasStringAtPath_ne_empty h4

/-- A concrete extras tree carrying one well-formed annotation path. -/
def extrasWitnessTree : List (String × ExtraValue) :=
  [("client::display", .obj [("contentType", .str " text/markdown ")])]

/-- C10 witness: the theorem applied at a concrete tree, discharging the
membership hypotheses at the one entry it produces. -/
theorem C10_extras_extraction_witness :
    ("gotify_content_type", "text/markdown").1 ∈ wellKnownAnnKeys ∧
    ("gotify_content_type", "text/markdown").2 ≠ "" ∧
    annLookup (ExtrasAnnotations extrasWitnessTree) "gotify_content_type" =
      extrasStringAtPath extrasWitnessTree ["client::display", "contentType"] :=
  ⟨(C10_extras_extraction extrasWitnessTree).1
      ("gotify_content_type", "text/markdown") (by decide),
    (C10_extras_extraction extrasWitnessTree).2.1
      ("gotify_content_type", "text/markdown") (by decide),
    (C10_extras_extraction extrasWitnessTree).2.2.1⟩
